import Mathlib

/-!
Shallow embedding of the festo_robotcontroller drive layer
(src/controller.rs, src/device.rs, src/device/servo.rs).

The cyclic session (`Controller::cycle`) exchanges the process image with the
fieldbus once and paces wall time; wall time is irrelevant to the verified
claims, so a cycle is modelled as: record the current output image as the
bytes that went on the wire, advance the cycle counter, and let the device
feedback be an arbitrary environment trace `env : Nat -> List Nat` giving the
input image after `k` cycles (`env 0` is the image before any exchange).

Bytes are `Nat`s (the code maintains them below 256; the bit operations used
here are faithful to `u8` semantics on that domain).  The subdevice lookup
(`SubDeviceGroup::subdevice`) is assumed to succeed in the drive-protocol
functions; `get_16`, whose claim is about that failure path, takes the
availability as an explicit parameter.  Rust index-out-of-bounds panics are
modelled as `Option.none` / a dedicated `panicked` constructor where a claim
depends on them.
-/

namespace Festo

/-- State of one device's slice of the process image, together with the
number of `cycle()` calls performed so far and the trace of output images
that have been exchanged (most recent first). -/
structure DState where
  outputs : List Nat
  cycles : Nat
  hist : List (List Nat)
deriving DecidableEq, Repr

/-- One call to `Controller::cycle`: the current output image goes on the
wire (recorded in `hist`) and the cycle counter advances; the input image
afterwards is `env cycles`. -/
def cycle (_env : Nat → List Nat) (s : DState) : DState :=
  { s with cycles := s.cycles + 1, hist := s.outputs :: s.hist }

/-- Value of `Device::get_bit` as a function of the cycle count: byte
`(field + bit / 8) % inputs.len()`, bit `bit % 8`, read from the input
image (src/device.rs:470). -/
def inputBit (env : Nat → List Nat) (k bit field : Nat) : Bool :=
  let ins := env k
  Nat.testBit (ins.getD ((field + bit / 8) % ins.length) 0) (bit % 8)

/-- `Device::get_bit` reads the input image as currently exchanged
(src/device.rs:470-481). -/
def get_bit (env : Nat → List Nat) (s : DState) (bit field : Nat) : Bool :=
  inputBit env s.cycles bit field

/-- `Device::set_bit` (src/device.rs:415-428): byte
`(field + bit / 8) % outputs.len()`, or the bit `bit % 8` into that byte of
the output image. -/
def set_bit (s : DState) (bit field : Nat) : DState :=
  let byte := (field + bit / 8) % s.outputs.length
  { s with outputs := s.outputs.set byte ((s.outputs.getD byte 0) ||| (1 <<< (bit % 8))) }

/-- `Device::unset_bit` (src/device.rs:442-456): same addressing, `&=` with
the `u8` complement of `1 << (bit % 8)`. -/
def unset_bit (s : DState) (bit field : Nat) : DState :=
  let byte := (field + bit / 8) % s.outputs.length
  { s with outputs := s.outputs.set byte ((s.outputs.getD byte 0) &&& (255 ^^^ (1 <<< (bit % 8)))) }

/-- `Device::unset_control` (src/device.rs:498-504): clear Control4 (bit 4),
Control5 (bit 5), Control6 (bit 6) and Control9 (bit 9) of the controlword
at field offset 0.  The `u16` return value is unused by every caller and
dropped here. -/
def unset_control (s : DState) : DState :=
  unset_bit (unset_bit (unset_bit (unset_bit s 4 0) 5 0) 6 0) 9 0

/-- `Device::ready_state` (src/device.rs:487-492): statusword bit 2,
OperationEnabled. -/
def ready_state (env : Nat → List Nat) (s : DState) : Bool :=
  get_bit env s 2 0

/-- Derived device status (`DeviceError`, src/device.rs:136-148). -/
inductive DeviceError where
  | Fault
  | Warning
  | FaultAndWarning
  | Ok
deriving DecidableEq, Repr

/-- `Device::get_error` (src/device.rs:510-520): Fault is statusword bit 3,
Warning is bit 7. -/
def get_error (env : Nat → List Nat) (s : DState) : DeviceError :=
  match get_bit env s 3 0, get_bit env s 7 0 with
  | false, false => .Ok
  | false, true => .Warning
  | true, false => .Fault
  | true, true => .FaultAndWarning

/-- `ResetError` (src/device.rs:12-25).  The ethercrab error payload of
`DeviceInUse` is abstracted away. -/
inductive ResetError where
  | ResetFailed (device : Nat)
  | ResetFailedWarning (device : Nat)
  | ResetFailedFault (device : Nat)
  | DeviceInUse (device : Nat)
deriving DecidableEq, Repr

/-- `EnableError` (src/device.rs:62-71). -/
inductive EnableError where
  | ResetFailed (e : ResetError)
  | Timeout (device : Nat)
  | Failed (device : Nat)
deriving DecidableEq, Repr

/-- `SetModeError` (src/device.rs:126): device id and the requested
operation-mode byte. -/
structure SetModeError where
  device : Nat
  mode : Nat
deriving DecidableEq, Repr

deriving instance DecidableEq for Except

/-- Outcome of `Device::reset`, with the number of FaultReset toggle
iterations the retry loop performed. -/
structure ResetOutcome where
  res : Except ResetError Unit
  state : DState
  toggles : Nat
deriving DecidableEq, Repr

/-- The FaultReset retry loop of `Device::reset` (src/device.rs:375-384):
while the derived status is not `Ok` and retries remain, set FaultReset
(controlword bit 7), cycle, clear FaultReset. -/
def resetLoop (env : Nat → List Nat) : Nat → DState → Nat → DState × Nat
  | 0, s, count => (s, count)
  | fuel + 1, s, count =>
    if get_error env s ≠ DeviceError.Ok then
      resetLoop env fuel (unset_bit (cycle env (set_bit s 7 0)) 7 0) (count + 1)
    else (s, count)

/-- `Device::reset` (src/device.rs:359-401): zero the whole output image,
one cycle, the FaultReset retry loop (budget 1000), then classify the Fault
and Warning statusword bits. -/
def device_reset (env : Nat → List Nat) (id : Nat) (s : DState) : ResetOutcome :=
  let s := { s with outputs := List.replicate s.outputs.length 0 }
  let s := cycle env s
  let r := resetLoop env 1000 s 0
  match get_bit env r.1 3 0, get_bit env r.1 7 0 with
  | false, false => ⟨.ok (), r.1, r.2⟩
  | false, true => ⟨.error (.ResetFailedWarning id), r.1, r.2⟩
  | true, false => ⟨.error (.ResetFailedFault id), r.1, r.2⟩
  | true, true => ⟨.error (.ResetFailed id), r.1, r.2⟩

/-- First enable loop of `Device::new` (src/device.rs:298-311): while not
(VoltageEnabled (4) and QuickStop (5)) and budget remains, set controlword
QuickStop (2) and EnableVoltage (1), cycle, decrement.  Returns the
remaining budget. -/
def enableLoop1 (env : Nat → List Nat) : Nat → DState → Nat × DState
  | 0, s => (0, s)
  | fuel + 1, s =>
    if !(get_bit env s 4 0 && get_bit env s 5 0) then
      enableLoop1 env fuel (cycle env (set_bit (set_bit s 2 0) 1 0))
    else (fuel + 1, s)

/-- Second enable loop of `Device::new` (src/device.rs:313-328): while not
(OperationEnabled (2) and SwitchedOn (1)) and budget remains, decrement, set
controlword EnableOperation (3) and SwitchOn (0), cycle. -/
def enableLoop2 (env : Nat → List Nat) : Nat → DState → Nat × DState
  | 0, s => (0, s)
  | fuel + 1, s =>
    if !(get_bit env s 2 0 && get_bit env s 1 0) then
      enableLoop2 env fuel (cycle env (set_bit (set_bit s 3 0) 0 0))
    else (fuel + 1, s)

/-- Outcome of `Device::new`, with the FaultReset toggle count of the inner
reset and the remaining enable budget at exit. -/
structure NewOutcome where
  res : Except EnableError Unit
  state : DState
  toggles : Nat
  remaining : Nat
deriving DecidableEq, Repr

/-- `Device::new` (src/device.rs:285-348): reset, then both enable loops
sharing one budget of 1000000, then the final classification: success iff
VoltageEnabled, QuickStop and OperationEnabled all read true; otherwise
`Timeout` when the budget is exhausted, else the generic `Failed`. -/
def device_new (env : Nat → List Nat) (id : Nat) (s : DState) : NewOutcome :=
  let r := device_reset env id s
  match r.res with
  | .error e => ⟨.error (.ResetFailed e), r.state, r.toggles, 1000000⟩
  | .ok _ =>
    let p1 := enableLoop1 env 1000000 r.state
    let p2 := enableLoop2 env p1.1 p1.2
    if get_bit env p2.2 4 0 && get_bit env p2.2 5 0 && get_bit env p2.2 2 0 then
      ⟨.ok (), p2.2, r.toggles, p2.1⟩
    else if p2.1 = 0 then ⟨.error (.Timeout id), p2.2, r.toggles, p2.1⟩
    else ⟨.error (.Failed id), p2.2, r.toggles, p2.1⟩

/-- Poll loop of `Device::set_mode` (src/device.rs:553-572), exactly as in
the source: the loop runs WHILE the input-side mode-echo byte (input byte 2)
EQUALS the requested mode; each iteration clears the control bits, writes
the mode byte to output byte 2 and cycles.  Returns the remaining budget. -/
def setModeLoop (env : Nat → List Nat) (mode : Nat) : Nat → DState → Nat × DState
  | 0, s => (0, s)
  | fuel + 1, s =>
    if (env s.cycles).getD 2 0 = mode then
      setModeLoop env mode fuel
        (cycle env { unset_control s with outputs := (unset_control s).outputs.set 2 mode })
    else (fuel + 1, s)

/-- `Device::set_mode` (src/device.rs:549-588): the poll loop with budget
100, then an error iff the mode-echo byte differs from the requested mode,
else clear the control bits and succeed. -/
def set_mode (env : Nat → List Nat) (id mode : Nat) (s : DState) :
    Except SetModeError Unit × DState :=
  let p := setModeLoop env mode 100 s
  if (env p.2.cycles).getD 2 0 ≠ mode then (.error ⟨id, mode⟩, p.2)
  else (.ok (), unset_control p.2)

/-- Result of `Device::get_16` (src/device.rs:532-540): the read value, the
typed ethercrab error of a failed subdevice lookup, or a Rust
index-out-of-bounds panic. -/
inductive Get16Result where
  | ok (value : Nat)
  | deviceErr
  | panicked
deriving DecidableEq, Repr

/-- `Device::get_16`: propagate the lookup failure as the typed error, then
index `inputs[byte]` and `inputs[byte + 1]` directly — no modulo, no bounds
check — and combine them little-endian.  The direct indexing panics when
`byte + 1` is not below the input image length. -/
def get_16 (avail : Bool) (inputs : List Nat) (byte : Nat) : Get16Result :=
  if avail then
    if byte + 1 < inputs.length then
      .ok ((inputs.getD byte 0) ||| ((inputs.getD (byte + 1) 0) <<< 8))
    else .panicked
  else .deviceErr

/-- `MovementError` (src/device/servo.rs:54-63).  The ethercrab payload of
the `Ethercat` variant is abstracted away; it is only produced by a failed
subdevice lookup, which the embedding assumes away. -/
inductive MovementError where
  | DriveDisabled (device : Nat)
  | Ethercat
  | SetMode (e : SetModeError)
deriving DecidableEq, Repr

/-- Little-endian byte decomposition of a `u32` value. -/
def u32leBytes (v : Nat) : List Nat :=
  [v % 256, v / 256 % 256, v / 65536 % 256, v / 16777216 % 256]

/-- Little-endian byte decomposition of an `i32` (`i32::to_le_bytes`): the
two's-complement 32-bit pattern of the value, bytewise. -/
def i32leBytes (t : Int) : List Nat :=
  u32leBytes (t % (2 ^ 32 : Int)).toNat

/-- Byte-by-byte copy into the output image, as `copy_from_slice` does on
the subrange starting at `off`. -/
def writeBytes : List Nat → Nat → List Nat → List Nat
  | outs, _, [] => outs
  | outs, off, b :: rest => writeBytes (outs.set off b) (off + 1) rest

/-- `Servo::set_position` (src/device/servo.rs:506-519): copy the 4
little-endian bytes of the `i32` target into `outputs[byte..byte+4]`.  The
Rust subslicing panics when `byte + 4` exceeds the output image length;
`none` models that panic. -/
def set_position (target : Int) (byte : Nat) (s : DState) : Option DState :=
  if byte + 4 ≤ s.outputs.length then
    some { s with outputs := writeBytes s.outputs byte (i32leBytes target) }
  else none

/-- `Servo::set_profile_velocity` (src/device/servo.rs:529-546): copy the 4
little-endian bytes of the `u32` velocity into `outputs[byte..byte+4]`
(callers pass `MappedPdo::ProfileVelocity = 7`).  `none` models the
subslicing panic. -/
def set_profile_velocity (velocity : Nat) (byte : Nat) (s : DState) : Option DState :=
  if byte + 4 ≤ s.outputs.length then
    some { s with outputs := writeBytes s.outputs byte (u32leBytes velocity) }
  else none

/-- An unbounded `while !get_bit(bit, ControlStatusWord) { cycle() }` wait,
given explicit fuel; `none` models the loop not having terminated within
the fuel. -/
def waitBit (env : Nat → List Nat) (bit : Nat) : Nat → DState → Option DState
  | fuel, s =>
    if get_bit env s bit 0 then some s
    else
      match fuel with
      | 0 => none
      | f + 1 => waitBit env bit f (cycle env s)

/-- The motion-complete wait of `Servo::move_position`
(src/device/servo.rs:405-420): while MotionComplete (statusword bit 10) is
false, clear the control bits and cycle (verbose logging elided). -/
def moveMcWait (env : Nat → List Nat) : Nat → DState → Option DState
  | fuel, s =>
    if get_bit env s 10 0 then some s
    else
      match fuel with
      | 0 => none
      | f + 1 => moveMcWait env f (cycle env (unset_control s))

/-- `Servo::jog_stop` (src/device/servo.rs:308-327): return immediately when
the device is not operation-enabled; otherwise clear the control bits and
wait for MotionComplete. -/
def jog_stop (env : Nat → List Nat) (fuel : Nat) (s : DState) : Option DState :=
  if ready_state env s = false then some s
  else waitBit env 10 fuel (unset_control s)

/-- Opening part of `Servo::move_position` (src/device/servo.rs:350-384), up
to and including the cycle that latches the position target: the
ready-state precondition, the switch to ProfilePosition mode (1), clearing
the control bits, setting Control6 for a relative move, writing the target,
and one cycle. -/
def moveSetup (env : Nat → List Nat) (id : Nat) (target : Int) (rel : Bool) (s : DState) :
    Option (Except MovementError Unit × DState) :=
  if ready_state env s = false then some (.error (.DriveDisabled id), s)
  else
    match set_mode env id 1 s with
    | (.error e, s₁) => some (.error (.SetMode e), s₁)
    | (.ok _, s₁) =>
      let s₂ := unset_control s₁
      let s₃ := if rel then set_bit s₂ 6 0 else s₂
      match set_position target 3 s₃ with
      | none => none
      | some s₄ => some (.ok (), cycle env s₄)

/-- `Servo::move_position` (src/device/servo.rs:350-425): the setup through
the latch cycle, then clear Halt (bit 8), set Control4, wait for
AckStartRefReached (bit 12), then the motion-complete wait. -/
def move_position (env : Nat → List Nat) (id : Nat) (target : Int) (rel : Bool)
    (fuel : Nat) (s : DState) : Option (Except MovementError Unit × DState) :=
  match moveSetup env id target rel s with
  | none => none
  | some (.error e, s₁) => some (.error e, s₁)
  | some (.ok _, s₁) =>
    let s₂ := set_bit (unset_bit s₁ 8 0) 4 0
    match waitBit env 12 fuel s₂ with
    | none => none
    | some s₃ =>
      match moveMcWait env fuel s₃ with
      | none => none
      | some s₄ => some (.ok (), s₄)

/-- Whether an `Except` result is a success. -/
def exceptOk (r : Except MovementError Unit) : Bool :=
  match r with
  | .ok _ => true
  | .error _ => false

/-- Environment of a healthy idle device: statusword constantly zero. -/
def envZero : Nat → List Nat := fun _ => [0, 0]

/-- Device state with a two-byte output image, before any cycle. -/
def sZero : DState := ⟨[0, 0], 0, []⟩

/-- Environment whose mode-echo byte (input byte 2) never matches any
nonzero requested mode. -/
def envC1 : Nat → List Nat := fun _ => [0, 0, 0]

/-- Device state with a three-byte output image, before any cycle. -/
def sC1 : DState := ⟨[0, 0, 0], 0, []⟩

/-- The §8 concrete enable scenario: statusword all-zero until the third
cycle, then VoltageEnabled and QuickStop (0x30), then from the sixth cycle
additionally SwitchedOn and OperationEnabled (0x36).  So the enable
sequence observes VoltageEnabled and QuickStop after its second cycle
(cycles 2 and 3, after the reset's cycle 1) and OperationEnabled and
SwitchedOn after three more (cycles 4, 5, 6). -/
def envScenario : Nat → List Nat := fun k =>
  if k < 3 then [0, 0] else if k < 6 then [48, 0] else [54, 0]

/-- Environment for the relative-move scenario: OperationEnabled always set
(byte 0 = 0x04), the mode echo always ProfilePosition (byte 2 = 1),
AckStartRefReached (byte 1 bit 4) always set, and MotionComplete (byte 1
bit 2) set only from cycle 102 on — one motion-complete wait iteration. -/
def env4 : Nat → List Nat := fun k =>
  [4, if 102 ≤ k then 20 else 16, 1, 0, 0, 0, 0, 0, 0, 0, 0, 0]

/-- Device state with a twelve-byte output image, before any cycle. -/
def sC4 : DState := ⟨List.replicate 12 0, 0, []⟩

/-- Device state with a four-byte output image, before any cycle. -/
def sW4 : DState := ⟨[0, 0, 0, 0], 0, []⟩

/-- Frame specification of `Servo::set_position` at the position field
(output bytes 3 to 6): the write succeeds, touches no cycle state, keeps
the image length, changes no byte outside `[3, 7)` and stores exactly the
little-endian bytes of the target. -/
def posWriteSpec (target : Int) (s : DState) : Prop :=
  ∃ s', set_position target 3 s = some s'
    ∧ s'.cycles = s.cycles ∧ s'.hist = s.hist
    ∧ s'.outputs.length = s.outputs.length
    ∧ (∀ j, j < 3 → s'.outputs.getD j 0 = s.outputs.getD j 0)
    ∧ (∀ j, 7 ≤ j → s'.outputs.getD j 0 = s.outputs.getD j 0)
    ∧ (∀ k, k < 4 → s'.outputs.getD (3 + k) 0 = (i32leBytes target).getD k 0)

/-- Frame specification of `Servo::set_profile_velocity` at the
profile-velocity field (output bytes 7 to 10), analogous to
`posWriteSpec`. -/
def velWriteSpec (v : Nat) (s : DState) : Prop :=
  ∃ s', set_profile_velocity v 7 s = some s'
    ∧ s'.cycles = s.cycles ∧ s'.hist = s.hist
    ∧ s'.outputs.length = s.outputs.length
    ∧ (∀ j, j < 7 → s'.outputs.getD j 0 = s.outputs.getD j 0)
    ∧ (∀ j, 11 ≤ j → s'.outputs.getD j 0 = s.outputs.getD j 0)
    ∧ (∀ k, k < 4 → s'.outputs.getD (7 + k) 0 = (u32leBytes v).getD k 0)

/-! Helper lemmas about list updates and bit tests. -/

theorem getD_set_self {l : List Nat} {i : Nat} (a d : Nat) (h : i < l.length) :
    (l.set i a).getD i d = a := by
  simp [List.getD, List.getElem?_set_self', List.getElem?_eq_getElem h]

theorem getD_set_ne {l : List Nat} {i j : Nat} (a d : Nat) (h : i ≠ j) :
    (l.set i a).getD j d = l.getD j d := by
  simp [List.getD, List.getElem?_set_ne h]

theorem testBit_lor_self (a i : Nat) : (a ||| (1 <<< i)).testBit i = true := by
  simp [Nat.testBit_lor, Nat.one_shiftLeft, Nat.testBit_two_pow_self]

theorem testBit_lor_ne (a i j : Nat) (h : j ≠ i) :
    (a ||| (1 <<< i)).testBit j = a.testBit j := by
  simp [Nat.testBit_lor, Nat.one_shiftLeft, Nat.testBit_two_pow_of_ne (Ne.symm h)]

theorem testBit_mask_self (a i : Nat) (hi : i < 8) :
    (a &&& (255 ^^^ (1 <<< i))).testBit i = false := by
  have h255 : (255 : Nat).testBit i = true := by interval_cases i <;> decide
  simp [Nat.testBit_land, Nat.testBit_xor, Nat.one_shiftLeft, Nat.testBit_two_pow_self, h255]

theorem testBit_mask_ne (a i j : Nat) (hij : j ≠ i) (hj : j < 8) :
    (a &&& (255 ^^^ (1 <<< i))).testBit j = a.testBit j := by
  have h255 : (255 : Nat).testBit j = true := by interval_cases j <;> decide
  simp [Nat.testBit_land, Nat.testBit_xor, Nat.one_shiftLeft,
    Nat.testBit_two_pow_of_ne (Ne.symm hij), h255]

/-! Helper lemmas about the embedded operations. -/

theorem unset_bit6_clears (s : DState) :
    Nat.testBit ((unset_bit s 6 0).outputs.getD 0 0) 6 = false := by
  rcases Nat.eq_zero_or_pos s.outputs.length with h0 | hp
  · have hnil : s.outputs = [] := List.length_eq_zero.mp h0
    simp [unset_bit, hnil]
  · simp only [unset_bit]
    have e : (0 + 6 / 8) % s.outputs.length = 0 := by simp
    rw [e, getD_set_self _ _ hp]
    exact testBit_mask_self _ 6 (by omega)

theorem unset_bit9_keeps_bit6 (s : DState)
    (hs : Nat.testBit (s.outputs.getD 0 0) 6 = false) :
    Nat.testBit ((unset_bit s 9 0).outputs.getD 0 0) 6 = false := by
  rcases Nat.eq_zero_or_pos s.outputs.length with h0 | hp
  · have hnil : s.outputs = [] := List.length_eq_zero.mp h0
    simp [unset_bit, hnil]
  · simp only [unset_bit]
    have e : (0 + 9 / 8) % s.outputs.length = 1 % s.outputs.length := by norm_num
    rw [e]
    rcases Nat.lt_or_ge s.outputs.length 2 with h2 | h2
    · have hl1 : s.outputs.length = 1 := by omega
      have e1 : 1 % s.outputs.length = 0 := by rw [hl1]
      rw [e1, getD_set_self _ _ hp]
      have e2 : (9 : Nat) % 8 = 1 := by norm_num
      rw [e2, testBit_mask_ne _ 1 6 (by omega) (by omega)]
      exact hs
    · have e1 : 1 % s.outputs.length = 1 := Nat.mod_eq_of_lt h2
      rw [e1, getD_set_ne _ _ (by omega)]
      exact hs

theorem unset_control_bit6 (s : DState) :
    Nat.testBit ((unset_control s).outputs.getD 0 0) 6 = false :=
  unset_bit9_keeps_bit6 _ (unset_bit6_clears _)

theorem writeBytes_length (bs : List Nat) :
    ∀ outs off, (writeBytes outs off bs).length = outs.length := by
  induction bs with
  | nil => intro outs off; rfl
  | cons b rest ih => intro outs off; simp [writeBytes, ih, List.length_set]

theorem writeBytes_getD_lt (bs : List Nat) :
    ∀ outs off j, j < off → (writeBytes outs off bs).getD j 0 = outs.getD j 0 := by
  induction bs with
  | nil => intro outs off j _; rfl
  | cons b rest ih =>
    intro outs off j hj
    show (writeBytes (outs.set off b) (off + 1) rest).getD j 0 = outs.getD j 0
    rw [ih _ _ _ (by omega), getD_set_ne _ _ (by omega)]

theorem writeBytes_getD_ge (bs : List Nat) :
    ∀ outs off j, off + bs.length ≤ j →
      (writeBytes outs off bs).getD j 0 = outs.getD j 0 := by
  induction bs with
  | nil => intro outs off j _; rfl
  | cons b rest ih =>
    intro outs off j hj
    simp only [List.length_cons] at hj
    show (writeBytes (outs.set off b) (off + 1) rest).getD j 0 = outs.getD j 0
    rw [ih _ _ _ (by omega), getD_set_ne _ _ (by omega)]

theorem writeBytes_getD_at (bs : List Nat) :
    ∀ outs off k, k < bs.length → off + bs.length ≤ outs.length →
      (writeBytes outs off bs).getD (off + k) 0 = bs.getD k 0 := by
  induction bs with
  | nil => intro outs off k hk _; simp at hk
  | cons b rest ih =>
    intro outs off k hk hlen
    simp only [List.length_cons] at hk hlen
    show (writeBytes (outs.set off b) (off + 1) rest).getD (off + k) 0 = _
    cases k with
    | zero =>
      rw [writeBytes_getD_lt rest _ _ _ (by omega)]
      exact getD_set_self _ _ (by omega)
    | succ k' =>
      have e : off + (k' + 1) = (off + 1) + k' := by omega
      rw [e, ih _ _ _ (by omega) (by rw [List.length_set]; omega)]
      rfl

theorem enableLoop1_budget (env : Nat → List Nat) :
    ∀ fuel s, (enableLoop1 env fuel s).1 ≤ fuel
      ∧ (enableLoop1 env fuel s).2.cycles = s.cycles + (fuel - (enableLoop1 env fuel s).1) := by
  intro fuel
  induction fuel with
  | zero => intro s; simp [enableLoop1]
  | succ f ih =>
    intro s
    cases hx : (get_bit env s 4 0 && get_bit env s 5 0) with
    | true => simp [enableLoop1, hx]
    | false =>
      have h1 := (ih (cycle env (set_bit (set_bit s 2 0) 1 0))).1
      have h2 := (ih (cycle env (set_bit (set_bit s 2 0) 1 0))).2
      have hc : (cycle env (set_bit (set_bit s 2 0) 1 0)).cycles = s.cycles + 1 := rfl
      simp only [enableLoop1, hx, Bool.not_false, if_true]
      exact ⟨Nat.le_succ_of_le h1, by rw [h2, hc]; omega⟩

theorem enableLoop2_never (env : Nat → List Nat)
    (hOE : ∀ k, inputBit env k 2 0 = false) :
    ∀ fuel s, (enableLoop2 env fuel s).1 = 0
      ∧ (enableLoop2 env fuel s).2.cycles = s.cycles + fuel := by
  intro fuel
  induction fuel with
  | zero => intro s; simp [enableLoop2]
  | succ f ih =>
    intro s
    have hx : (get_bit env s 2 0 && get_bit env s 1 0) = false := by
      simp [get_bit, hOE]
    have h1 := (ih (cycle env (set_bit (set_bit s 3 0) 0 0))).1
    have h2 := (ih (cycle env (set_bit (set_bit s 3 0) 0 0))).2
    have hc : (cycle env (set_bit (set_bit s 3 0) 0 0)).cycles = s.cycles + 1 := rfl
    simp only [enableLoop2, hx, Bool.not_false, if_true]
    exact ⟨h1, by rw [h2, hc]; omega⟩

theorem resetLoop_ok (env : Nat → List Nat) (s : DState)
    (h : get_error env s = DeviceError.Ok) :
    ∀ fuel count, resetLoop env fuel s count = (s, count) := by
  intro fuel count
  cases fuel with
  | zero => rfl
  | succ f => simp [resetLoop, h]

theorem device_reset_ok (env : Nat → List Nat) (id : Nat) (s : DState)
    (hF : ∀ k, inputBit env k 3 0 = false) (hW : ∀ k, inputBit env k 7 0 = false) :
    device_reset env id s
      = ⟨.ok (), cycle env { s with outputs := List.replicate s.outputs.length 0 }, 0⟩ := by
  have hge : ∀ t : DState, get_error env t = DeviceError.Ok := by
    intro t; simp [get_error, get_bit, hF, hW]
  simp [device_reset, resetLoop_ok env _ (hge _), get_bit, hF, hW]

/-! Claim theorems. -/

/-- C1 (code bug): at a device whose mode-echo byte never matches the
requested mode (echo constantly 0, requested mode Homing = 6, device 7),
`Device::set_mode` returns the mode-mismatch error with the right device id
and mode, but it does so immediately — the state is unchanged: zero
`cycle()` calls, no write of the mode byte to the output image, no clearing
of the action control bits.  The claim (and the function's own comment
"Wait for mode to get active") expects the mode to be written and polled
for up to the 100-cycle budget first; the loop condition at
src/device.rs:553-560 is inverted (`==` where the intent is `!=`). -/
theorem set_mode_inverted_poll_failing_input :
    set_mode envC1 7 6 sC1 = (.error ⟨7, 6⟩, sC1) := by decide

/-- C2 (counterexample): in the §8 scenario (device 2, statusword all-zero,
VoltageEnabled∧QuickStop after exactly 2 enable cycles, then
OperationEnabled∧SwitchedOn after exactly 3 more), `Device::new` does
return Ok — but not after 5 calls to `cycle()`: the reset performs one
unconditional cycle before the five enable-loop cycles. -/
theorem device_new_scenario_not_five_cycles :
    (device_new envScenario 2 sZero).res = .ok ()
    ∧ (device_new envScenario 2 sZero).state.cycles ≠ 5 := by decide

/-- C2 (amended): in the same scenario `Device::new` returns Ok after
exactly 6 calls to `cycle()` — 1 from Reset plus the 5 enable-loop cycles —
with Reset performing no FaultReset toggling. -/
theorem device_new_scenario_six_cycles :
    (device_new envScenario 2 sZero).res = .ok ()
    ∧ (device_new envScenario 2 sZero).state.cycles = 6
    ∧ (device_new envScenario 2 sZero).toggles = 0 := by decide

/-- C3 (counterexample): `set_bit(0, 0)` immediately followed by
`get_bit(0, 0)` returns false, not true: the set writes the output image
while the get reads the input image (here constantly zero). -/
theorem set_then_get_crossimage_counterexample :
    get_bit envZero (set_bit sZero 0 0) 0 0 = false := by decide

/-- C3 (amended): for every bit index b < 16 and field offset f, `set_bit`
makes the addressed bit of the OUTPUT image read true and `unset_bit` makes
it read false, with no cycle in between; `get_bit` reads the INPUT image,
so its value is unchanged by either write. -/
theorem set_bit_output_readback (env : Nat → List Nat) (s : DState) (b f : Nat)
    (_hb : b < 16) (h : 0 < s.outputs.length) :
    Nat.testBit ((set_bit s b f).outputs.getD ((f + b / 8) % s.outputs.length) 0) (b % 8) = true
    ∧ Nat.testBit ((unset_bit s b f).outputs.getD ((f + b / 8) % s.outputs.length) 0) (b % 8)
        = false
    ∧ get_bit env (set_bit s b f) b f = get_bit env s b f
    ∧ get_bit env (unset_bit s b f) b f = get_bit env s b f := by
  refine ⟨?_, ?_, rfl, rfl⟩
  · show Nat.testBit ((s.outputs.set _ _).getD _ 0) (b % 8) = true
    rw [getD_set_self _ _ (Nat.mod_lt _ h)]
    exact testBit_lor_self _ _
  · show Nat.testBit ((s.outputs.set _ _).getD _ 0) (b % 8) = false
    rw [getD_set_self _ _ (Nat.mod_lt _ h)]
    exact testBit_mask_self _ _ (Nat.mod_lt _ (by omega))

/-- C3 witness: the amended property at bit 9, field 0, on a four-byte
output image. -/
theorem set_bit_output_readback_witness :
    Nat.testBit ((set_bit sW4 9 0).outputs.getD ((0 + 9 / 8) % sW4.outputs.length) 0) (9 % 8)
      = true
    ∧ Nat.testBit ((unset_bit sW4 9 0).outputs.getD ((0 + 9 / 8) % sW4.outputs.length) 0) (9 % 8)
      = false
    ∧ get_bit envZero (set_bit sW4 9 0) 9 0 = get_bit envZero sW4 9 0 := by
  have h := set_bit_output_readback envZero sW4 9 0 (by decide) (by decide)
  exact ⟨h.1, h.2.1, h.2.2.1⟩

/-- C5: the bit operations address byte `(f + b/8) mod image_length` — an
in-range index — and bit `b mod 8` of that byte; bytes other than the
addressed one are untouched; the addressed bit is set (resp. cleared); and
for 8 ≤ b < 16 the spill deterministically reaches byte `(f+1) mod
image_length`. -/
theorem bit_address_wraparound (s : DState) (b f : Nat)
    (h : 0 < s.outputs.length) :
    ((f + b / 8) % s.outputs.length < s.outputs.length)
    ∧ (∀ j, j ≠ (f + b / 8) % s.outputs.length →
        (set_bit s b f).outputs.getD j 0 = s.outputs.getD j 0
        ∧ (unset_bit s b f).outputs.getD j 0 = s.outputs.getD j 0)
    ∧ Nat.testBit ((set_bit s b f).outputs.getD ((f + b / 8) % s.outputs.length) 0) (b % 8)
        = true
    ∧ Nat.testBit ((unset_bit s b f).outputs.getD ((f + b / 8) % s.outputs.length) 0) (b % 8)
        = false
    ∧ (8 ≤ b → b < 16 → (f + b / 8) % s.outputs.length = (f + 1) % s.outputs.length) := by
  refine ⟨Nat.mod_lt _ h, ?_, ?_, ?_, ?_⟩
  · intro j hj
    constructor
    · show (s.outputs.set _ _).getD j 0 = s.outputs.getD j 0
      exact getD_set_ne _ _ (Ne.symm hj)
    · show (s.outputs.set _ _).getD j 0 = s.outputs.getD j 0
      exact getD_set_ne _ _ (Ne.symm hj)
  · show Nat.testBit ((s.outputs.set _ _).getD _ 0) (b % 8) = true
    rw [getD_set_self _ _ (Nat.mod_lt _ h)]
    exact testBit_lor_self _ _
  · show Nat.testBit ((s.outputs.set _ _).getD _ 0) (b % 8) = false
    rw [getD_set_self _ _ (Nat.mod_lt _ h)]
    exact testBit_mask_self _ _ (Nat.mod_lt _ (by omega))
  · intro h8 h16
    have hd : b / 8 = 1 := by omega
    rw [hd]

/-- C5 witness: `set_bit(8, 3)` on a four-byte image lands on byte
`(3 + 1) mod 4 = 0`, bit 0 — the wraparound boundary case. -/
theorem bit_address_wraparound_witness :
    ((3 + 8 / 8) % sW4.outputs.length < sW4.outputs.length)
    ∧ Nat.testBit ((set_bit sW4 8 3).outputs.getD ((3 + 8 / 8) % sW4.outputs.length) 0) (8 % 8)
        = true
    ∧ (3 + 8 / 8) % sW4.outputs.length = (3 + 1) % sW4.outputs.length := by
  have h := bit_address_wraparound sW4 8 3 (by decide)
  exact ⟨h.1, h.2.2.1, h.2.2.2.2 (by decide) (by decide)⟩

/-- C8: `set_position` writes exactly the 4 little-endian bytes of the
target into output bytes [3,7) and `set_profile_velocity` exactly the 4
little-endian bytes of the velocity into [7,11); every output byte outside
the written field, the cycle counter (hence the input image) and the
exchange history are unchanged. -/
theorem multibyte_write_frame (target : Int) (v : Nat) (s : DState) :
    (7 ≤ s.outputs.length → posWriteSpec target s)
    ∧ (11 ≤ s.outputs.length → velWriteSpec v s) := by
  constructor
  · intro h
    refine ⟨{ s with outputs := writeBytes s.outputs 3 (i32leBytes target) },
      ?_, rfl, rfl, writeBytes_length _ _ _, ?_, ?_, ?_⟩
    · show (if 3 + 4 ≤ s.outputs.length then _ else none) = _
      rw [if_pos (by omega)]
    · intro j hj
      exact writeBytes_getD_lt _ _ _ _ (by omega)
    · intro j hj
      exact writeBytes_getD_ge _ _ _ _ (show 3 + 4 ≤ j by omega)
    · intro k hk
      exact writeBytes_getD_at _ _ _ _ (show k < 4 from hk) (show 3 + 4 ≤ s.outputs.length by omega)
  · intro h
    refine ⟨{ s with outputs := writeBytes s.outputs 7 (u32leBytes v) },
      ?_, rfl, rfl, writeBytes_length _ _ _, ?_, ?_, ?_⟩
    · show (if 7 + 4 ≤ s.outputs.length then _ else none) = _
      rw [if_pos (by omega)]
    · intro j hj
      exact writeBytes_getD_lt _ _ _ _ (by omega)
    · intro j hj
      exact writeBytes_getD_ge _ _ _ _ (show 7 + 4 ≤ j by omega)
    · intro k hk
      exact writeBytes_getD_at _ _ _ _ (show k < 4 from hk) (show 7 + 4 ≤ s.outputs.length by omega)

/-- C8 witness: both field writes on a twelve-byte output image. -/
theorem multibyte_write_frame_witness :
    posWriteSpec (-1) sC4 ∧ velWriteSpec 300 sC4 :=
  ⟨(multibyte_write_frame (-1) 300 sC4).1 (by decide),
   (multibyte_write_frame (-1) 300 sC4).2 (by decide)⟩

/-- C9: `Servo::jog_stop` on a device whose OperationEnabled statusword bit
reads false returns at once with the state untouched — zero `cycle()`
calls, output image unchanged — and signals no error. -/
theorem jog_stop_disabled_noop (env : Nat → List Nat) (fuel : Nat) (s : DState)
    (h : ready_state env s = false) : jog_stop env fuel s = some s := by
  simp [jog_stop, h]

/-- C9 witness: jog_stop with an all-zero statusword. -/
theorem jog_stop_disabled_noop_witness : jog_stop envZero 5 sZero = some sZero :=
  jog_stop_disabled_noop envZero 5 sZero (by decide)

/-- C10: `Device::get_16` returns the typed error exactly when the device
image cannot be located; when it is located the two input bytes are indexed
directly (no modulo wraparound, unlike the bit operations), so the call is
total only under `byte + 1 < inputs.length` and panics otherwise. -/
theorem get_16_totality (avail : Bool) (inputs : List Nat) (byte : Nat) :
    (get_16 false inputs byte = .deviceErr)
    ∧ (avail = true → byte + 1 < inputs.length →
        get_16 avail inputs byte
          = .ok ((inputs.getD byte 0) ||| ((inputs.getD (byte + 1) 0) <<< 8)))
    ∧ (avail = true → inputs.length ≤ byte + 1 → get_16 avail inputs byte = .panicked)
    ∧ (avail = true → get_16 avail inputs byte ≠ .deviceErr) := by
  refine ⟨rfl, ?_, ?_, ?_⟩
  · intro ha hlt
    subst ha
    simp [get_16, hlt]
  · intro ha hge
    subst ha
    simp [get_16, Nat.not_lt.mpr hge]
  · intro ha
    subst ha
    by_cases hlt : byte + 1 < inputs.length <;> simp [get_16, hlt]

/-- C10 witness: reading bytes 0-1 of a two-byte input image succeeds with
the little-endian value, reading at offset 1 panics, and an unavailable
image yields the typed error. -/
theorem get_16_totality_witness :
    get_16 true [1, 2] 0 = .ok 513
    ∧ get_16 true [1, 2] 1 = .panicked
    ∧ get_16 false [1, 2] 0 = .deviceErr := by
  refine ⟨?_, ?_, ?_⟩
  · have h := (get_16_totality true [1, 2] 0).2.1 rfl (by decide)
    simpa using h
  · exact (get_16_totality true [1, 2] 1).2.2.1 rfl (by decide)
  · exact (get_16_totality false [1, 2] 0).1

/-- C6: a healthy device (Fault and Warning never set) that never sets
OperationEnabled makes `Device::new` fail with `Timeout`, and only after the
full enable retry budget of 1000000 cycles has been spent (plus the reset's
single cycle), with no budget remaining; moreover, in general, a successful
`Device::new` requires VoltageEnabled, QuickStop and OperationEnabled to
read true simultaneously at exit, and the generic `Failed` variant is
returned exactly when the loops exit without all three set while budget
remains. -/
theorem enable_timeout_budget (env : Nat → List Nat) (id : Nat) (s : DState)
    (hOE : ∀ k, inputBit env k 2 0 = false)
    (hF : ∀ k, inputBit env k 3 0 = false)
    (hW : ∀ k, inputBit env k 7 0 = false) :
    ((device_new env id s).res = .error (.Timeout id)
      ∧ (device_new env id s).state.cycles = s.cycles + 1000001
      ∧ (device_new env id s).remaining = 0)
    ∧ (∀ env' id' s',
        ((device_new env' id' s').res = .ok () →
          (get_bit env' (device_new env' id' s').state 4 0
            && get_bit env' (device_new env' id' s').state 5 0
            && get_bit env' (device_new env' id' s').state 2 0) = true)
        ∧ ((device_new env' id' s').res = .error (.Failed id') →
          (device_new env' id' s').remaining ≠ 0
          ∧ (get_bit env' (device_new env' id' s').state 4 0
              && get_bit env' (device_new env' id' s').state 5 0
              && get_bit env' (device_new env' id' s').state 2 0) = false)) := by
  constructor
  · have hreset := device_reset_ok env id s hF hW
    have h1 := enableLoop1_budget env 1000000
        (cycle env { s with outputs := List.replicate s.outputs.length 0 })
    have h2 := enableLoop2_never env hOE
        (enableLoop1 env 1000000 (cycle env { s with outputs := List.replicate s.outputs.length 0 })).1
        (enableLoop1 env 1000000 (cycle env { s with outputs := List.replicate s.outputs.length 0 })).2
    have hc : get_bit env (enableLoop2 env
        (enableLoop1 env 1000000 (cycle env { s with outputs := List.replicate s.outputs.length 0 })).1
        (enableLoop1 env 1000000 (cycle env { s with outputs := List.replicate s.outputs.length 0 })).2).2
        2 0 = false := by
      simp [get_bit, hOE]
    simp only [device_new, hreset, hc, Bool.and_false, Bool.false_eq_true, if_false, h2.1]
    refine ⟨by simp, ?_, by simp⟩
    simp only [reduceIte]
    rw [h2.2, h1.2]
    have hcy : (cycle env { s with outputs := List.replicate s.outputs.length 0 }).cycles
        = s.cycles + 1 := rfl
    rw [hcy]
    have h11 := h1.1
    omega
  · intro env' id' s'
    simp only [device_new]
    rcases hr : (device_reset env' id' s').res with e | u
    · simp [hr]
    · simp only [hr]
      split
      next hcond =>
        constructor
        · intro _
          exact hcond
        · intro habs
          simp at habs
      next hcond =>
        split
        next hz => simp
        next hz =>
          constructor
          · intro habs
            simp at habs
          · intro _
            refine ⟨hz, ?_⟩
            simpa using hcond

/-- C6 witness: the all-zero statusword device — never OperationEnabled,
never faulted — at device id 0. -/
theorem enable_timeout_budget_witness :
    (device_new envZero 0 sZero).res = .error (.Timeout 0)
    ∧ (device_new envZero 0 sZero).state.cycles = sZero.cycles + 1000001
    ∧ (device_new envZero 0 sZero).remaining = 0 :=
  (enable_timeout_budget envZero 0 sZero (fun k => by simp [inputBit, envZero])
    (fun k => by simp [inputBit, envZero]) (fun k => by simp [inputBit, envZero])).1

/-- C7: on a device whose Fault and Warning statusword bits read clear
(derived status Ok) throughout, invoking `Device::reset` twice in a row
succeeds both times, with zero FaultReset toggle iterations on each call —
in particular none on the second. -/
theorem reset_idempotent (env : Nat → List Nat) (id : Nat) (s : DState)
    (hF : ∀ k, inputBit env k 3 0 = false) (hW : ∀ k, inputBit env k 7 0 = false) :
    (device_reset env id s).res = .ok () ∧ (device_reset env id s).toggles = 0
    ∧ (device_reset env id (device_reset env id s).state).res = .ok ()
    ∧ (device_reset env id (device_reset env id s).state).toggles = 0 := by
  rw [device_reset_ok env id s hF hW]
  rw [device_reset_ok env id _ hF hW]
  simp

/-- C7 witness: double reset with an all-zero statusword at device id 3. -/
theorem reset_idempotent_witness :
    (device_reset envZero 3 sZero).res = .ok () ∧ (device_reset envZero 3 sZero).toggles = 0
    ∧ (device_reset envZero 3 (device_reset envZero 3 sZero).state).res = .ok ()
    ∧ (device_reset envZero 3 (device_reset envZero 3 sZero).state).toggles = 0 :=
  reset_idempotent envZero 3 sZero (fun k => by simp [inputBit, envZero])
    (fun k => by simp [inputBit, envZero])

/-- C4 (counterexample): a relative move (device 0, target 5) that succeeds
after one motion-complete wait iteration.  In the trace of exchanged output
images, the most recent exchange — performed while the move was still in
progress, before MotionComplete was first observed true — carries Control6
(bit 6 of byte 0) CLEAR, because the wait loop cleared the control bits;
the exchange before it (the latch cycle) carried it set.  So Control6 does
not remain set in the output image for the entire duration of the move. -/
theorem move_position_control6_cleared_midmove :
    (move_position env4 0 5 true 3 sC4).map (fun p =>
      (exceptOk p.1,
       Nat.testBit ((p.2.hist.getD 0 []).getD 0 0) 6,
       Nat.testBit ((p.2.hist.getD 1 []).getD 0 0) 6)) = some (true, false, true) := by
  set_option maxRecDepth 100000 in decide

/-- C4 (amended): for every position move that reaches the latch cycle (the
cycle immediately after the target write), the output image exchanged at
that cycle has Control6 set exactly when the move is relative — set for
relative, clear for absolute; however, Control6 does not stay set for the
whole move: every motion-complete wait iteration goes through
`unset_control`, which leaves Control6 clear in the output image. -/
theorem move_position_control6_latch :
    (∀ env id target rel s,
      match moveSetup env id target rel s with
      | some (.ok _, s') => Nat.testBit ((s'.hist.headD []).getD 0 0) 6 = rel
      | _ => True)
    ∧ (∀ s : DState, Nat.testBit ((unset_control s).outputs.getD 0 0) 6 = false)
    ∧ (∀ env fuel s, moveMcWait env (fuel + 1) s
        = if get_bit env s 10 0 then some s
          else moveMcWait env fuel (cycle env (unset_control s))) := by
  refine ⟨?_, unset_control_bit6, ?_⟩
  · intro env id target rel s
    cases hready : ready_state env s with
    | false => simp [moveSetup, hready]
    | true =>
      rcases hm : set_mode env id 1 s with ⟨res, s₁⟩
      cases res with
      | error e => simp [moveSetup, hready, hm]
      | ok u =>
        cases rel with
        | true =>
          by_cases hlen : 3 + 4 ≤ (set_bit (unset_control s₁) 6 0).outputs.length
          · have hp : set_position target 3 (set_bit (unset_control s₁) 6 0)
                = some { set_bit (unset_control s₁) 6 0 with
                    outputs :=
                      writeBytes (set_bit (unset_control s₁) 6 0).outputs 3 (i32leBytes target) } := by
              rw [set_position, if_pos hlen]
            simp [moveSetup, hready, hm, hp, cycle]
            rw [← List.getD_eq_getElem?_getD]
            rw [writeBytes_getD_lt _ _ _ _ (by omega)]
            have hlen' : 0 < (unset_control s₁).outputs.length := by
              simp only [set_bit, List.length_set] at hlen
              omega
            have e0 : (0 + 6 / 8) % (unset_control s₁).outputs.length = 0 := by simp
            rw [show (set_bit (unset_control s₁) 6 0).outputs
                  = (unset_control s₁).outputs.set 0
                      ((unset_control s₁).outputs.getD 0 0 ||| (1 <<< (6 % 8))) from by
                simp only [set_bit]
                rw [e0]]
            rw [getD_set_self _ _ hlen']
            exact testBit_lor_self _ _
          · have hp : set_position target 3 (set_bit (unset_control s₁) 6 0) = none := by
              rw [set_position, if_neg hlen]
            simp [moveSetup, hready, hm, hp]
        | false =>
          by_cases hlen : 3 + 4 ≤ (unset_control s₁).outputs.length
          · have hp : set_position target 3 (unset_control s₁)
                = some { unset_control s₁ with
                    outputs := writeBytes (unset_control s₁).outputs 3 (i32leBytes target) } := by
              rw [set_position, if_pos hlen]
            simp [moveSetup, hready, hm, hp, cycle]
            rw [← List.getD_eq_getElem?_getD]
            rw [writeBytes_getD_lt _ _ _ _ (by omega)]
            exact unset_control_bit6 s₁
          · have hp : set_position target 3 (unset_control s₁) = none := by
              rw [set_position, if_neg hlen]
            simp [moveSetup, hready, hm, hp]
  · intro env fuel s
    rfl

end Festo
